import Mathlib

/-!
Verification of the `xgo` cross-compilation wrapper (`xgo.go`).

The program is a thin wrapper around a docker container: it checks the
docker installation, validates the command line, checks (and possibly
pulls) the required docker image, and finally runs the container with a
fixed argument list carrying the build request as environment variables.

We embed the pure parts of the program directly (`stringInSlice`,
`getTargets`, the argument list built by `compile`) and the effectful
control flow of `main` as a function from an environment (the outcomes of
the external docker commands) to the trace of external commands executed
and the final outcome.
-/

namespace Xgo

/-- The docker image name prefixes, from the top of `xgo.go`. -/
def dockerDist : String := "karalabe/xgo-"

/-- `stringInSlice` from `xgo.go`: linear scan comparing each element to `a`. -/
def stringInSlice (a : String) (list : List String) : Bool :=
  match list with
  | [] => false
  | b :: rest => if b = a then true else stringInSlice a rest

/-- Splitting a character list at every occurrence of the separator
character. Splitting the empty list gives one empty chunk, matching Go's
`strings.Split("", ",") = [""]`. -/
def splitChars (sep : Char) : List Char → List (List Char)
  | [] => [[]]
  | c :: rest =>
    if c = sep then [] :: splitChars sep rest
    else
      match splitChars sep rest with
      | [] => [[c]]
      | chunk :: chunks => (c :: chunk) :: chunks

/-- Go's `strings.Split(s, ",")`: the comma-separated tokens of `s`. -/
def goSplitComma (s : String) : List String :=
  (splitChars ',' s.data).map fun cs => String.mk cs

/-- The seven target-flag strings returned by `getTargets`
(`linux64 ... darwin386`, in source order). Each field holds the string
`"true"` or `"false"`, exactly as in the Go code. -/
structure TargetFlags where
  linux64 : String
  linux386 : String
  linuxArm : String
  windows64 : String
  windows386 : String
  darwin64 : String
  darwin386 : String
  deriving DecidableEq, Repr

/-- `getTargets` from `xgo.go`: all flags start `"false"`; if the spec string
is not `"all"`, each flag is set `"true"` iff its identifier occurs as a
comma-separated token; otherwise every flag is set `"true"`. -/
def getTargets (targets : String) : TargetFlags :=
  if targets ≠ "all" then
    { linux64 := if stringInSlice "linux64" (goSplitComma targets) then "true" else "false"
      linux386 := if stringInSlice "linux386" (goSplitComma targets) then "true" else "false"
      linuxArm := if stringInSlice "linuxArm" (goSplitComma targets) then "true" else "false"
      windows64 := if stringInSlice "windows64" (goSplitComma targets) then "true" else "false"
      windows386 := if stringInSlice "windows386" (goSplitComma targets) then "true" else "false"
      darwin64 := if stringInSlice "darwin64" (goSplitComma targets) then "true" else "false"
      darwin386 := if stringInSlice "darwin386" (goSplitComma targets) then "true" else "false" }
  else
    { linux64 := "true", linux386 := "true", linuxArm := "true", windows64 := "true"
      windows386 := "true", darwin64 := "true", darwin386 := "true" }

/-- A build request: the arguments `compile` receives, together with the
`-go` flag value that `compile` reads from the global `goVersion`. -/
structure BuildRequest where
  repo : String
  remote : String
  branch : String
  pack : String
  targets : String
  deps : String
  out : String
  verbose : Bool
  race : Bool
  goVersion : String
  deriving DecidableEq, Repr

/-- Go's `fmt.Sprintf("%v", b)` on a boolean. -/
def goBoolString (b : Bool) : String :=
  if b then "true" else "false"

/-- The argument list `compile` passes to `exec.Command("docker", ...)`,
after the subcommand name. `folder` is the working directory obtained from
`os.Getwd()`. Transcribed element for element from `xgo.go`, including the
literal `%s` in the `DARWIN386` assignment. -/
def compileArgs (req : BuildRequest) (folder : String) : List String :=
  let t := getTargets req.targets
  ["run",
   "-v", folder ++ ":/build",
   "-e", "REPO_REMOTE=" ++ req.remote,
   "-e", "REPO_BRANCH=" ++ req.branch,
   "-e", "PACK=" ++ req.pack,
   "-e", "LINUX64=" ++ t.linux64,
   "-e", "LINUX386=" ++ t.linux386,
   "-e", "LINUXARM=" ++ t.linuxArm,
   "-e", "WINDOWS64=" ++ t.windows64,
   "-e", "WINDOWS386=" ++ t.windows386,
   "-e", "DARWIN64=" ++ t.darwin64,
   "-e", "DARWIN386=%s" ++ t.darwin386,
   "-e", "DEPS=" ++ req.deps,
   "-e", "OUT=" ++ req.out,
   "-e", "FLAG_V=" ++ goBoolString req.verbose,
   "-e", "FLAG_RACE=" ++ goBoolString req.race,
   dockerDist ++ req.goVersion, req.repo]

/-- `bytes.Contains out image`: the image string occurs contiguously in the
output. -/
def strContains (s sub : String) : Bool :=
  decide (sub.data <:+: s.data)

/-- Output of an executed process, with the two streams kept separate so
that `exec.Cmd.Output` (standard output only) can be told apart from
`CombinedOutput`. -/
structure ExecResult where
  stdout : String
  stderr : String
  deriving DecidableEq, Repr

/-- `checkDockerImage` from `xgo.go`, as a function of the result of
executing `docker images --no-trunc`: `none` (execution failed) yields the
error case; otherwise the code calls `.Output()` and tests whether the
captured standard output contains the image name. -/
def checkDockerImage (image : String) (res : Option ExecResult) : Option Bool :=
  match res with
  | none => none
  | some r => some (strContains r.stdout image)

/-- The external commands `main` can execute, in the order they appear in
`xgo.go`: `docker version`, `docker images --no-trunc`, `docker pull
<image>`, and `docker run <args>`. -/
inductive Cmd where
  | version : Cmd
  | images : Cmd
  | pull (image : String) : Cmd
  | runContainer (args : List String) : Cmd
  deriving DecidableEq, Repr

/-- Responses of the external world to the docker commands `main` may run:
whether `docker version` succeeds, the result of `docker images --no-trunc`
(`none` = execution error), whether `docker pull` succeeds, and whether the
final `docker run` succeeds. -/
structure Env where
  versionOk : Bool
  imagesRes : Option ExecResult
  pullOk : Bool
  compileOk : Bool
  deriving DecidableEq, Repr

/-- How a run of `main` ends. Every `fatal*` constructor is a
`log.Fatalf` call (non-zero exit), tagged by which message it prints. -/
inductive Outcome where
  | fatalDocker : Outcome
  | fatalUsage : Outcome
  | fatalImageCheck : Outcome
  | fatalPull : Outcome
  | fatalCompile : Outcome
  | success : Outcome
  deriving DecidableEq, Repr

/-- The command-line flag values `main` reads (the `flag.String` /
`flag.Bool` globals of `xgo.go`). -/
structure Flags where
  goVersion : String
  inPackage : String
  outPref : String
  srcRemote : String
  srcBranch : String
  crossDeps : String
  targets : String
  buildVerbose : Bool
  buildRace : Bool
  deriving DecidableEq, Repr

/-- `main` from `xgo.go` as a function of the environment, the positional
arguments (`flag.Args()`), the flag values, and the working directory:
returns the trace of external commands executed, in order, and the outcome.
Control flow transcribed from the source: `checkDocker` first, then the
positional-argument count check, then `checkDockerImage`, then (only on
`found == false`) `pullDockerImage`, then `compile`. -/
def mainRun (env : Env) (posArgs : List String) (fl : Flags) (folder : String) :
    List Cmd × Outcome :=
  if env.versionOk = false then
    ([Cmd.version], Outcome.fatalDocker)
  else
    match posArgs with
    | [repo] =>
      let image := dockerDist ++ fl.goVersion
      match env.imagesRes with
      | none => ([Cmd.version, Cmd.images], Outcome.fatalImageCheck)
      | some res =>
        let req : BuildRequest :=
          { repo := repo, remote := fl.srcRemote, branch := fl.srcBranch
            pack := fl.inPackage, targets := fl.targets, deps := fl.crossDeps
            out := fl.outPref, verbose := fl.buildVerbose, race := fl.buildRace
            goVersion := fl.goVersion }
        let compileCmd := Cmd.runContainer (compileArgs req folder)
        if strContains res.stdout image then
          if env.compileOk then
            ([Cmd.version, Cmd.images, compileCmd], Outcome.success)
          else
            ([Cmd.version, Cmd.images, compileCmd], Outcome.fatalCompile)
        else
          if env.pullOk = false then
            ([Cmd.version, Cmd.images, Cmd.pull image], Outcome.fatalPull)
          else if env.compileOk then
            ([Cmd.version, Cmd.images, Cmd.pull image, compileCmd], Outcome.success)
          else
            ([Cmd.version, Cmd.images, Cmd.pull image, compileCmd], Outcome.fatalCompile)
    | _ => ([Cmd.version], Outcome.fatalUsage)

/-- Whether a command is a `docker pull`. -/
def Cmd.isPull : Cmd → Bool
  | Cmd.pull _ => true
  | _ => false

/-- Whether a command is the `docker run` compilation invocation. -/
def Cmd.isRunContainer : Cmd → Bool
  | Cmd.runContainer _ => true
  | _ => false

/-- The seven target identifiers recognized by `getTargets`. -/
def recognized : List String :=
  ["linux64", "linux386", "linuxArm", "windows64", "windows386", "darwin64", "darwin386"]

/-- The flag set determined purely by membership of the seven identifiers
in a token list; used to characterize `getTargets` on non-`"all"` specs. -/
def flagsFromTokens (tokens : List String) : TargetFlags :=
  { linux64 := if "linux64" ∈ tokens then "true" else "false"
    linux386 := if "linux386" ∈ tokens then "true" else "false"
    linuxArm := if "linuxArm" ∈ tokens then "true" else "false"
    windows64 := if "windows64" ∈ tokens then "true" else "false"
    windows386 := if "windows386" ∈ tokens then "true" else "false"
    darwin64 := if "darwin64" ∈ tokens then "true" else "false"
    darwin386 := if "darwin386" ∈ tokens then "true" else "false" }

/-- A concrete flag record: `-go latest`, all string flags empty, default
`-targets all`, booleans off. -/
def fl0 : Flags := ⟨"latest", "", "", "", "", "", "all", false, false⟩

/-- A concrete environment in which every docker command succeeds and the
image listing names the required image. -/
def env0 : Env := ⟨true, some ⟨"karalabe/xgo-latest", ""⟩, true, true⟩

/-- A concrete build request targeting only `darwin386`. -/
def req0 : BuildRequest := ⟨"pkg", "", "", "", "darwin386", "", "", false, false, "latest"⟩

/-! ## Helper lemmas -/

/-- `stringInSlice` decides list membership. -/
theorem stringInSlice_true_iff (a : String) (l : List String) :
    stringInSlice a l = true ↔ a ∈ l := by
  induction l with
  | nil => simp [stringInSlice]
  | cons b rest ih =>
    by_cases h : b = a
    · simp [stringInSlice, h]
    · simp [stringInSlice, h, ih, Ne.symm h]

/-- On any spec other than `"all"`, `getTargets` is the membership test of
the seven identifiers among the comma-separated tokens. -/
theorem getTargets_eq_flagsFromTokens (spec : String) (h : spec ≠ "all") :
    getTargets spec = flagsFromTokens (goSplitComma spec) := by
  rw [getTargets, if_pos h]
  simp only [flagsFromTokens, stringInSlice_true_iff]

/-- In the trace `[version, images, pull, runContainer]`, every position
holding the compilation invocation is preceded by a position holding a
pull. -/
theorem run_after_pull_trace (img : String) (a : List String) (k : ℕ)
    (hk : (([Cmd.version, Cmd.images, Cmd.pull img, Cmd.runContainer a].get? k).map
      Cmd.isRunContainer) = some true) :
    ∃ j, j < k ∧
      (([Cmd.version, Cmd.images, Cmd.pull img, Cmd.runContainer a].get? j).map
        Cmd.isPull) = some true := by
  match k with
  | 0 => simp [Cmd.isRunContainer] at hk
  | 1 => simp [Cmd.isRunContainer] at hk
  | 2 => simp [Cmd.isRunContainer] at hk
  | 3 => exact ⟨2, by omega, rfl⟩
  | n + 4 => simp at hk

/-! ## Claims -/

/-- Claim C3: for the target spec string `"all"`, `getTargets` returns the
Target Flag Set with every one of the seven flags true. -/
theorem getTargets_all :
    getTargets "all" = ⟨"true", "true", "true", "true", "true", "true", "true"⟩ := rfl

/-- Claim C4: for every target spec string whose comma-separated tokens all
come from the seven recognized identifiers, exactly the flags whose
identifiers appear among the tokens are `"true"` and all others are
`"false"`, depending only on token membership (hence independent of order
and duplicates). -/
theorem getTargets_recognized_tokens (spec : String) (tokens : List String)
    (h1 : goSplitComma spec = tokens)
    (h2 : ∀ t ∈ tokens, t ∈ recognized) :
    getTargets spec = flagsFromTokens tokens := by
  have hall : "all" ∉ tokens := fun hm => absurd (h2 _ hm) (by decide)
  have hne : spec ≠ "all" := by
    intro hs; subst hs
    have : tokens = ["all"] := h1.symm.trans (by decide)
    subst this
    exact hall (by decide)
  rw [getTargets_eq_flagsFromTokens spec hne, h1]

/-- Witness for C4 at `"linux64,darwin64"`: linux64 and darwin64 are true,
the other five flags false. -/
theorem getTargets_recognized_tokens_witness :
    goSplitComma "linux64,darwin64" = ["linux64", "darwin64"] ∧
    getTargets "linux64,darwin64" =
      ⟨"true", "false", "false", "false", "false", "true", "false"⟩ :=
  ⟨by decide,
    (getTargets_recognized_tokens "linux64,darwin64" ["linux64", "darwin64"]
      (by decide) (by decide)).trans (by decide)⟩

/-- Claim C5: for every spec string other than `"all"` none of whose tokens
is a recognized identifier (the empty string included), `getTargets`
returns all seven flags `"false"`; being a total function, it raises no
error. -/
theorem getTargets_unrecognized_all_false (spec : String)
    (h1 : spec ≠ "all")
    (h2 : ∀ t ∈ goSplitComma spec, t ∉ recognized) :
    getTargets spec = ⟨"false", "false", "false", "false", "false", "false", "false"⟩ := by
  have hx : ∀ t : String, t ∈ recognized → t ∉ goSplitComma spec := fun t hr hm => h2 t hm hr
  rw [getTargets_eq_flagsFromTokens spec h1]
  simp only [flagsFromTokens]
  rw [if_neg (hx "linux64" (by decide)), if_neg (hx "linux386" (by decide)),
    if_neg (hx "linuxArm" (by decide)), if_neg (hx "windows64" (by decide)),
    if_neg (hx "windows386" (by decide)), if_neg (hx "darwin64" (by decide)),
    if_neg (hx "darwin386" (by decide))]

/-- Witness for C5 at the empty spec string. -/
theorem getTargets_unrecognized_all_false_witness :
    getTargets "" = ⟨"false", "false", "false", "false", "false", "false", "false"⟩ :=
  getTargets_unrecognized_all_false "" (by decide) (by decide)

/-- Claim C10: when `"all"` occurs only as one comma-separated token among
two or more, the spec string differs from the sentinel, so `getTargets`
falls through to token matching: the flags are exactly the membership test
of the seven recognized identifiers, and filtering the `"all"` token out of
the token list changes nothing — it is silently dropped. -/
theorem all_token_among_others_ignored (spec : String) (tokens : List String)
    (h1 : goSplitComma spec = tokens) (h2 : "all" ∈ tokens) (h3 : 2 ≤ tokens.length) :
    getTargets spec = flagsFromTokens tokens ∧
    flagsFromTokens tokens = flagsFromTokens (tokens.filter fun t => t ≠ "all") := by
  have hne : spec ≠ "all" := by
    intro hs; subst hs
    have : tokens = ["all"] := h1.symm.trans (by decide)
    subst this
    simp at h3
  refine ⟨by rw [getTargets_eq_flagsFromTokens spec hne, h1], ?_⟩
  have key : ∀ s : String, s ≠ "all" →
      ((s ∈ tokens) ↔ (s ∈ tokens.filter fun t => t ≠ "all")) := by
    intro s hs
    simp [List.mem_filter, hs]
  simp only [flagsFromTokens]
  rw [if_congr (key "linux64" (by decide)) rfl rfl,
    if_congr (key "linux386" (by decide)) rfl rfl,
    if_congr (key "linuxArm" (by decide)) rfl rfl,
    if_congr (key "windows64" (by decide)) rfl rfl,
    if_congr (key "windows386" (by decide)) rfl rfl,
    if_congr (key "darwin64" (by decide)) rfl rfl,
    if_congr (key "darwin386" (by decide)) rfl rfl]

/-- Witness for C10 at `"all,linux64"`: only the linux64 flag is set. -/
theorem all_token_among_others_ignored_witness :
    getTargets "all,linux64" = flagsFromTokens ["all", "linux64"] ∧
    flagsFromTokens ["all", "linux64"] =
      ⟨"true", "false", "false", "false", "false", "false", "false"⟩ :=
  ⟨(all_token_among_others_ignored "all,linux64" ["all", "linux64"]
      (by decide) (by decide) (by decide)).1, by decide⟩

/-- Claim C1 (code bug): the `DARWIN386` environment assignment built by
`compile` carries a stray literal `%s` between the `=` and the boolean —
`"DARWIN386=%s"+darwin386` in the source — unlike the clean `DARWIN64`
assignment two slots earlier, so it is not the stringified boolean only. -/
theorem darwin386_env_artifact :
    (compileArgs req0 "/work").get? 22 = some "DARWIN386=%strue" ∧
    (compileArgs req0 "/work").get? 20 = some "DARWIN64=false" ∧
    "DARWIN386=%strue" ≠ "DARWIN386=true" := by decide

/-- Counterexample to C2 as stated: with zero positional arguments the run
does exit non-zero with the usage message, but its trace already contains
the `docker version` query — some external process ran before the exit. -/
theorem zero_args_version_query_runs :
    (mainRun env0 [] fl0 "/work").1 = [Cmd.version] ∧
    (mainRun env0 [] fl0 "/work").2 = Outcome.fatalUsage ∧
    ([Cmd.version] : List Cmd) ≠ [] := by decide

/-- Claim C2 (amended): with zero positional arguments and a succeeding
container-runtime version query, the program exits non-zero with the usage
(InvalidArguments-class) message, and the version query is the only
external process executed before that exit. -/
theorem zero_args_fatal_usage_after_version (env : Env) (fl : Flags) (folder : String)
    (hv : env.versionOk = true) :
    mainRun env [] fl folder = ([Cmd.version], Outcome.fatalUsage) := by
  simp [mainRun, hv]

/-- Witness for the amended C2 in the all-good environment. -/
theorem zero_args_fatal_usage_after_version_witness :
    mainRun env0 [] fl0 "/work" = ([Cmd.version], Outcome.fatalUsage) :=
  zero_args_fatal_usage_after_version env0 fl0 "/work" rfl

/-- Counterexample to C6 as stated: when the image name appears only on the
standard error stream, the combined output does contain it, yet
`checkDockerImage` reports the image absent — the code captures standard
output only (`.Output()`), not the combined output. -/
theorem image_check_ignores_stderr :
    checkDockerImage "karalabe/xgo-latest" (some ⟨"", "karalabe/xgo-latest"⟩) = some false ∧
    strContains ("" ++ "karalabe/xgo-latest") "karalabe/xgo-latest" = true := by decide

/-- Claim C6 (amended): for every image identifier, the image-presence
check returns true exactly when the captured standard output of the
listing subcommand contains the identifier as a contiguous substring, it
returns a boolean whenever the listing ran, and it returns the error case
exactly when executing the listing failed. -/
theorem checkDockerImage_stdout_contract (image : String) (res : ExecResult) :
    (checkDockerImage image (some res) = some true ↔ image.data <:+: res.stdout.data) ∧
    (checkDockerImage image (some res)).isSome = true ∧
    checkDockerImage image none = none := by
  refine ⟨?_, rfl, rfl⟩
  simp [checkDockerImage, strContains]

/-- Claim C7: in every run reaching the image check, if the listing output
lacks the image then the trace contains a pull of that image and every
compilation invocation in the trace is preceded by a pull; if the listing
output contains the image, no pull command appears in the trace at all. -/
theorem pull_exactly_when_absent (env : Env) (fl : Flags) (folder repo : String)
    (res : ExecResult) (hv : env.versionOk = true) (hres : env.imagesRes = some res) :
    (strContains res.stdout (dockerDist ++ fl.goVersion) = true →
      ∀ c ∈ (mainRun env [repo] fl folder).1, c.isPull = false) ∧
    (strContains res.stdout (dockerDist ++ fl.goVersion) = false →
      Cmd.pull (dockerDist ++ fl.goVersion) ∈ (mainRun env [repo] fl folder).1 ∧
      ∀ k, ((mainRun env [repo] fl folder).1.get? k).map Cmd.isRunContainer = some true →
        ∃ j, j < k ∧ ((mainRun env [repo] fl folder).1.get? j).map Cmd.isPull = some true) := by
  constructor
  · intro hfound c hc
    rcases hcomp : env.compileOk with _ | _ <;>
      simp [mainRun, hv, hres, hfound, hcomp] at hc <;>
      rcases hc with rfl | rfl | rfl <;> rfl
  · intro habsent
    rcases hpull : env.pullOk with _ | _
    · have ht : (mainRun env [repo] fl folder).1 =
          [Cmd.version, Cmd.images, Cmd.pull (dockerDist ++ fl.goVersion)] := by
        simp [mainRun, hv, hres, habsent, hpull]
      rw [ht]
      refine ⟨by simp, fun k hk => ?_⟩
      match k with
      | 0 => simp [Cmd.isRunContainer] at hk
      | 1 => simp [Cmd.isRunContainer] at hk
      | 2 => simp [Cmd.isRunContainer] at hk
      | n + 3 => simp at hk
    · rcases hcomp : env.compileOk with _ | _ <;>
        · have ht : (mainRun env [repo] fl folder).1 =
              [Cmd.version, Cmd.images, Cmd.pull (dockerDist ++ fl.goVersion),
                Cmd.runContainer (compileArgs
                  ⟨repo, fl.srcRemote, fl.srcBranch, fl.inPackage, fl.targets,
                    fl.crossDeps, fl.outPref, fl.buildVerbose, fl.buildRace,
                    fl.goVersion⟩ folder)] := by
            simp [mainRun, hv, hres, habsent, hpull, hcomp]
          rw [ht]
          exact ⟨by simp, run_after_pull_trace _ _⟩

/-- Witness for C7: with an empty image listing, the pull command appears
in the trace. -/
theorem pull_exactly_when_absent_witness :
    Cmd.pull ("karalabe/xgo-" ++ "latest") ∈
      (mainRun ⟨true, some ⟨"", ""⟩, true, true⟩ ["pkg"] fl0 "/work").1 :=
  ((pull_exactly_when_absent ⟨true, some ⟨"", ""⟩, true, true⟩ fl0 "/work" "pkg"
      ⟨"", ""⟩ rfl rfl).2 (by decide)).1

/-- Claim C8: if the container-runtime version query fails, the runs ends
in a non-success outcome and the trace contains nothing but the version
query itself — no image check, no pull, no compilation invocation. -/
theorem version_failure_stops_run (env : Env) (posArgs : List String) (fl : Flags)
    (folder : String) (h : env.versionOk = false) :
    (mainRun env posArgs fl folder).2 ≠ Outcome.success ∧
    ∀ c ∈ (mainRun env posArgs fl folder).1, c = Cmd.version := by
  have hrun : mainRun env posArgs fl folder = ([Cmd.version], Outcome.fatalDocker) := by
    simp [mainRun, h]
  rw [hrun]
  exact ⟨by decide, by simp⟩

/-- Witness for C8 with a failing version query. -/
theorem version_failure_stops_run_witness :
    (mainRun ⟨false, none, false, false⟩ ["pkg"] fl0 "/work").2 ≠ Outcome.success ∧
    ∀ c ∈ (mainRun ⟨false, none, false, false⟩ ["pkg"] fl0 "/work").1, c = Cmd.version :=
  version_failure_stops_run ⟨false, none, false, false⟩ ["pkg"] fl0 "/work" rfl

/-- Claim C9: for a fixed build request, the argument list handed to the
container runtime has the same length for any two working directories,
position 2 is exactly the volume mount built from the working directory,
and every position other than 2 is byte-identical across the two runs. -/
theorem compileArgs_deterministic (req : BuildRequest) (f1 f2 : String) :
    (compileArgs req f1).length = (compileArgs req f2).length ∧
    (compileArgs req f1).get? 2 = some (f1 ++ ":/build") ∧
    ∀ i, i ≠ 2 → (compileArgs req f1).get? i = (compileArgs req f2).get? i := by
  refine ⟨rfl, rfl, fun i hi => ?_⟩
  match i with
  | 0 => rfl
  | 1 => rfl
  | 2 => exact absurd rfl hi
  | n + 3 => rfl

/-- Witness for C9: the element after the mount agrees across two working
directories. -/
theorem compileArgs_deterministic_witness :
    (compileArgs req0 "/a").get? 3 = (compileArgs req0 "/b").get? 3 :=
  (compileArgs_deterministic req0 "/a" "/b").2.2 3 (by decide)

end Xgo
